import Mathlib

/-!
Verification development for the libbcc Renderscript compiler driver
(RSCompilerDriver.cpp, RSScript.cpp, RSInfo.h).

The driver code is embedded shallowly: every external collaborator
(RSInfo extraction, runtime linking, file locks, file opens, the
external Compiler, the info writer) is represented by a boolean outcome
in an environment record, and each function returns, besides its result
and the updated driver state, the ordered list of externally visible
operations it performed (its trace).  The trace lets us state which
files were opened, locked, compiled into or written, and in which
order, exactly as the C++ code performs them.

Paths are modelled as lists of characters.  The embedding targets the
non-MinGW build (the `#ifndef USE_MINGW` lock block is present) and
takes the `PROVIDE_ARM_CODEGEN` preprocessor flag as an explicit
boolean parameter `arm`.
-/

namespace Bcc

/-- File paths, as character lists (contents of `llvm::SmallString`,
`std::string`, `const char *`). -/
abbrev Path := List Char

/-- `llvm::sys::path::append(path, component)`: add a separator if the
path is non-empty and does not already end in one and the component
does not begin with one, then append the component. -/
def pathAppend (p c : Path) : Path :=
  if p = [] then c
  else if p.getLast? = some '/' then p ++ c
  else if c.head? = some '/' then p ++ c
  else p ++ '/' :: c

/-- Position of the first character of the filename component: the
index just after the last separator (0 when there is none).  Models
`llvm::sys::path::filename_pos`. -/
def filenamePos (p : Path) : Nat :=
  p.length - (p.reverse.takeWhile (fun ch => ch ≠ '/')).length

/-- Index of the first element satisfying the predicate. -/
def firstMatch : List Char → (Char → Bool) → Option Nat
  | [], _ => none
  | x :: xs, p => if p x then some 0 else (firstMatch xs p).map (· + 1)

/-- Index of the last occurrence of `ch` in `p`
(`StringRef::find_last_of`): the first occurrence in the reversed
list, converted back to a forward index. -/
def lastIndexOf (p : Path) (ch : Char) : Option Nat :=
  (firstMatch p.reverse (fun x => x = ch)).map (fun i => p.length - 1 - i)

/-- `llvm::sys::path::replace_extension(path, ext)`: erase everything
from the last dot onwards provided that dot lies inside the filename
component, then append a dot (unless the new extension already starts
with one) and the new extension. -/
def replaceExtension (p ext : Path) : Path :=
  let base :=
    match lastIndexOf p '.' with
    | some pos => if filenamePos p ≤ pos then p.take pos else p
    | none => p
  let dot : Path :=
    match ext with
    | [] => []
    | e :: _ => if e = '.' then [] else ['.']
  base ++ dot ++ ext

/-- Result codes surfaced by `RSCompilerDriver::compileScript`.  The
C++ `Compiler::ErrorCode` has further constructors, but every failure
path inside `compileScript` returns the single literal
`Compiler::kErrInvalidSource`, so those are the only two values the
embedded function can produce. -/
inductive ErrorCode where
  | kSuccess
  | kErrInvalidSource
deriving DecidableEq, Repr

/-- `CompilerConfig` as used by `RSCompilerDriver::setupConfig`: only
the optimization level and the full-precision flag are read or
written there. -/
structure CompilerConfig where
  optLevel : Nat
  fullPrecision : Bool
deriving DecidableEq, Repr

/-- Modelled from the spec: the precision value a freshly constructed
`CompilerConfig` carries (its constructor is outside src/).  The value
is irrelevant to the claims: on the first compile the configuration is
applied unconditionally. -/
def defaultFullPrecision : Bool := false

/-- The externally visible operations the driver performs, in program
order.  Paths identify which file each operation targets. -/
inductive Event where
  /-- `Source::addBuildChecksumMetadata` on the script's source. -/
  | addChecksumMeta (checksum : Path)
  /-- `RSInfo::ExtractFromSource(source, hash, cmdLine, fingerprint)`. -/
  | extractInfo (sourceHash : List Nat) (cmdLine : Path) (fingerprint : Path)
  /-- `RSScript::LinkRuntime`. -/
  | linkRuntime
  /-- Constructing and locking a `FileMutex<kWriteLock>` on `p`. -/
  | lockAcquire (p : Path)
  /-- Opening `OutputFile p` with `kTruncate` (truncates `p`). -/
  | openWrite (p : Path)
  /-- `mCompiler.config(*mConfig)`. -/
  | configureCompiler
  /-- `mCompiler.compile(script, output_file, ...)`: the external
  compiler is invoked and writes the object into the file at `p`. -/
  | compile (p : Path)
  /-- `info->write(info_file)` writing the sidecar at `p`. -/
  | writeInfo (p : Path)
  /-- `Sha1Util::GetSHA1DigestFromBuffer` over the input bitcode. -/
  | computeSha1
  /-- `Source::CreateFromBuffer` / `Source::CreateFromModule`. -/
  | createSource
  /-- `fuseKernels(Context, sources, slots)`. -/
  | fuseKernels
deriving DecidableEq, Repr

/-- True when the operation creates, truncates or writes the file at
`p`; locking does not modify the file. -/
def Event.touches (e : Event) (p : Path) : Bool :=
  match e with
  | .openWrite q => q = p
  | .compile q => q = p
  | .writeInfo q => q = p
  | _ => false

/-- Outcomes of the external collaborators for one run, plus the
ambient state the driver consults.  `cacheEntryValid` records whether
a valid cache entry (identical bitcode and checksum, unchanged runtime
dependencies) already exists on disk for the requested output; the
driver code contains no read of any such entry, which the theorems
below make precise. -/
structure Env where
  /-- `RSInfo::ExtractFromSource` returns non-null. -/
  extractOk : Bool
  /-- `RSScript::LinkRuntime` succeeds. -/
  linkOk : Bool
  /-- The output-path `FileMutex` has no error and `lock()` succeeds. -/
  lockObjOk : Bool
  /-- The output `OutputFile` opens without error. -/
  openObjOk : Bool
  /-- `new (std::nothrow) CompilerConfig(...)` returns non-null. -/
  configAllocOk : Bool
  /-- `mCompiler.config(*mConfig)` returns `kSuccess`. -/
  configOk : Bool
  /-- `mCompiler.compile(...)` returns `kSuccess`. -/
  compileOk : Bool
  /-- The info-path `OutputFile` opens without error. -/
  openInfoOk : Bool
  /-- The info-path `FileMutex` has no error and `lock()` succeeds. -/
  lockInfoOk : Bool
  /-- `info->write(info_file)` succeeds. -/
  infoWriteOk : Bool
  /-- `Source::CreateFromBuffer` returns non-null. -/
  sourceCreateOk : Bool
  /-- `fuseKernels` returns a non-null module. -/
  fuseOk : Bool
  /-- A valid cache entry for the requested output already exists. -/
  cacheEntryValid : Bool
  /-- The extracted `RSInfo` reports `FP_Full` precision. -/
  infoFullPrec : Bool
  /-- Value of `getBuildFingerPrint()` (platform property lookup). -/
  buildFingerprint : Path
  /-- Digest `Sha1Util::GetSHA1DigestFromBuffer` computes for the
  supplied bitcode buffer. -/
  sha1Digest : List Nat
  /-- Contents of the uninitialized `bitcode_sha1` buffer in
  `buildScriptGroup` (the C++ never initializes it). -/
  junkHash : List Nat
  /-- Optimization level `bcinfo::BitcodeWrapper` reads from the
  bitcode wrapper header. -/
  wrapperOptLevel : Nat
deriving Repr

/-- The slice of `RSScript` state the driver reads or writes:
the optimization level (defaulting to `kOptLvl3 = 3` in the
constructor) and the embed-info flag. -/
structure RSScript where
  optLevel : Nat
  embedInfo : Bool
deriving DecidableEq, Repr

namespace RSInfo

/-- Modelled from the spec: `RSInfo::GetPath` (implemented outside
src/) derives the sidecar path from the output path by a fixed suffix
rule, computable without reading either file. -/
def GetPath (p : Path) : Path := p ++ ".info".data

end RSInfo

/-- `RSCompilerDriver::setupConfig`: returns the updated `mConfig`
together with the `changed` flag.  On the first run (no retained
config) a fresh configuration is allocated (when allocation succeeds)
and `changed` is set; on later runs the retained configuration is
compared field by field — optimization level always, full precision
only under `PROVIDE_ARM_CODEGEN` (`arm`). -/
def setupConfig (arm : Bool) (cfg : Option CompilerConfig) (allocOk : Bool)
    (scriptOpt : Nat) (scriptFullPrec : Bool) :
    Option CompilerConfig × Bool :=
  match cfg with
  | some c =>
    let s1 : CompilerConfig × Bool :=
      if c.optLevel ≠ scriptOpt then ({ c with optLevel := scriptOpt }, true)
      else (c, false)
    if arm then
      if s1.1.fullPrecision ≠ scriptFullPrec then
        (some { s1.1 with fullPrecision := scriptFullPrec }, true)
      else (some s1.1, s1.2)
    else (some s1.1, s1.2)
  | none =>
    if allocOk then
      let c0 : CompilerConfig :=
        { optLevel := scriptOpt, fullPrecision := defaultFullPrecision }
      if arm then
        if c0.fullPrecision ≠ scriptFullPrec then
          (some { c0 with fullPrecision := scriptFullPrec }, true)
        else (some c0, true)
      else (some c0, true)
    else (none, false)

/-- The events `compileScript` emits before extraction: the optional
build-checksum metadata embedding. -/
def checksumEvents (chk : Option Path) : List Event :=
  match chk with
  | some cs => if cs ≠ [] then [.addChecksumMeta cs] else []
  | none => []

/-- `RSCompilerDriver::compileScript`: embed checksum metadata, extract
the RS info, link the runtime, lock then open the output file, set up
and (when needed) reconfigure the compiler, optionally open the IR
dump file, run the compiler, and when `saveInfoFile` is set open the
info file, lock its path and write the sidecar — in exactly the order
of the C++ (in particular the info file is opened before its lock is
taken).  Returns the error code, the updated `mConfig`, and the
trace. -/
def compileScript (arm : Bool) (cfg : Option CompilerConfig) (env : Env)
    (script : RSScript) (outputPath : Path)
    (sourceHash : List Nat) (cmdLine : Path) (buildChecksum : Option Path)
    (saveInfoFile dumpIR : Bool) :
    ErrorCode × Option CompilerConfig × List Event :=
  let tr0 : List Event := checksumEvents buildChecksum
  let tr1 := tr0 ++ [.extractInfo sourceHash cmdLine env.buildFingerprint]
  if !env.extractOk then (.kErrInvalidSource, cfg, tr1) else
  let tr2 := tr1 ++ [.linkRuntime]
  if !env.linkOk then (.kErrInvalidSource, cfg, tr2) else
  let tr3 := tr2 ++ [.lockAcquire outputPath]
  if !env.lockObjOk then (.kErrInvalidSource, cfg, tr3) else
  let tr4 := tr3 ++ [.openWrite outputPath]
  if !env.openObjOk then (.kErrInvalidSource, cfg, tr4) else
  match setupConfig arm cfg env.configAllocOk script.optLevel env.infoFullPrec with
  | (none, _) => (.kErrInvalidSource, none, tr4)
  | (some c, changed) =>
    let tr5 := tr4 ++ (if changed then [Event.configureCompiler] else [])
    if changed && !env.configOk then (.kErrInvalidSource, some c, tr5) else
    let tr6 := tr5 ++ (if dumpIR then [Event.openWrite (outputPath ++ ".ll".data)] else [])
    let tr7 := tr6 ++ [.compile outputPath]
    if !env.compileOk then (.kErrInvalidSource, some c, tr7) else
    if saveInfoFile then
      let infoPath := RSInfo.GetPath outputPath
      let tr8 := tr7 ++ [.openWrite infoPath]
      if !env.openInfoOk then (.kErrInvalidSource, some c, tr8) else
      let tr9 := tr8 ++ [.lockAcquire infoPath]
      if !env.lockInfoOk then (.kErrInvalidSource, some c, tr9) else
      let tr10 := tr9 ++ [.writeInfo infoPath]
      if !env.infoWriteOk then (.kErrInvalidSource, some c, tr10) else
      (.kSuccess, some c, tr10)
    else
      (.kSuccess, some c, tr7)

/-- `RSCompilerDriver::build`: validate the parameters, hash the
bitcode, construct `{cacheDir}/{resName}` with its extension replaced
by `.o`, create the source, read the optimization level from the
bitcode wrapper, and compile with `saveInfoFile = true`.  Returns
whether the build succeeded, the updated `mConfig`, and the trace. -/
def build (arm : Bool) (cfg : Option CompilerConfig) (env : Env)
    (cacheDir resName : Option Path) (bitcode : Option (List Nat))
    (bitcodeSize : Nat) (cmdLine : Path) (buildChecksum : Option Path)
    (dumpIR : Bool) :
    Bool × Option CompilerConfig × List Event :=
  match cacheDir, resName with
  | some d, some r =>
    match bitcode with
    | some _ =>
      if bitcodeSize = 0 then (false, cfg, [])
      else
        let outputPath := replaceExtension (pathAppend d r) ".o".data
        let tr1 : List Event := [.computeSha1, .createSource]
        if !env.sourceCreateOk then (false, cfg, tr1) else
        let script : RSScript := { optLevel := env.wrapperOptLevel, embedInfo := false }
        match compileScript arm cfg env script outputPath
            env.sha1Digest cmdLine buildChecksum true dumpIR with
        | (st, c2, tr2) => (st = ErrorCode.kSuccess, c2, tr1 ++ tr2)
    | none => (false, cfg, [])
  | _, _ => (false, cfg, [])

/-- `RSCompilerDriver::buildScriptGroup`: fuse the kernels, create a
source from the fused module, compile with an uninitialized hash, an
empty command line, a null checksum and `saveInfoFile = true` — and
return `true` without inspecting `compileScript`'s status, exactly as
the C++ does. -/
def buildScriptGroup (arm : Bool) (cfg : Option CompilerConfig) (env : Env)
    (outputFilepath : Path) (dumpIR : Bool) :
    Bool × Option CompilerConfig × List Event :=
  if !env.fuseOk then (false, cfg, [.fuseKernels]) else
  let tr1 : List Event := [.fuseKernels, .createSource]
  let script : RSScript := { optLevel := 3, embedInfo := false }
  let outputPath := replaceExtension outputFilepath ".o".data
  match compileScript arm cfg env script outputPath
      env.junkHash [] none true dumpIR with
  | (_, c2, tr2) => (true, c2, tr1 ++ tr2)

/-- The zero-initialized 20-byte `bitcode_sha1` buffer of
`buildForCompatLib` (`uint8_t bitcode_sha1[SHA1_DIGEST_LENGTH] = {0}`,
where the digest length is 20). -/
def zeroHash : List Nat := List.replicate 20 0

/-- `RSCompilerDriver::buildForCompatLib`: extract the info with a
zeroed 20-byte hash and empty command-line and fingerprint strings,
set the embed-info flag on the script, and compile with the same
zeroed hash, empty command line and `saveInfoFile = false`.  Returns
success, the updated `mConfig`, the trace, and the final script
state. -/
def buildForCompatLib (arm : Bool) (cfg : Option CompilerConfig) (env : Env)
    (script : RSScript) (out : Path) (buildChecksum : Option Path)
    (dumpIR : Bool) :
    Bool × Option CompilerConfig × List Event × RSScript :=
  let tr0 : List Event := [.extractInfo zeroHash [] []]
  if !env.extractOk then (false, cfg, tr0, script) else
  let script1 : RSScript := { script with embedInfo := true }
  match compileScript arm cfg env script1 out
      zeroHash [] buildChecksum false dumpIR with
  | (st, c2, tr2) => (st = ErrorCode.kSuccess, c2, tr0 ++ tr2, script1)

/-! ## The on-disk dependency-table item (RSInfo.h)

`rsinfo::DependencyTableItem` is a packed struct of two
`StringIndexTy` (`uint32_t`) fields: `id`, the dependency name's index
into the string pool, and `sha1`, the index into the string pool of
the fixed-length 20-byte SHA-1 checksum — the hash bytes themselves
live in the pool, not in the item. -/

/-- A `uint32_t` field of a packed struct, as its four bytes. -/
def encodeU32 (n : Nat) : List Nat :=
  [n % 256, n / 256 % 256, n / 65536 % 256, n / 16777216 % 256]

/-- `rsinfo::DependencyTableItem`. -/
structure DependencyTableItem where
  /-- String-pool index of the dependency name. -/
  id : Nat
  /-- String-pool index of the stored SHA-1 checksum (the 20 hash
  bytes are a pool entry, referenced here by index). -/
  sha1 : Nat
deriving DecidableEq, Repr

/-- Serialized bytes of a packed `rsinfo::DependencyTableItem`: the
two `uint32_t` fields, nothing else. -/
def DependencyTableItem.encode (it : DependencyTableItem) : List Nat :=
  encodeU32 it.id ++ encodeU32 it.sha1

/-! ## Helper definitions for the proofs -/

/-- The trace of a `compileScript` run in which every step succeeds. -/
def successTrace (arm : Bool) (cfg : Option CompilerConfig) (env : Env)
    (script : RSScript) (outputPath : Path) (sourceHash : List Nat)
    (cmdLine : Path) (chk : Option Path) (saveInfoFile dumpIR : Bool) :
    List Event :=
  checksumEvents chk ++
  [.extractInfo sourceHash cmdLine env.buildFingerprint, .linkRuntime,
   .lockAcquire outputPath, .openWrite outputPath] ++
  (if (setupConfig arm cfg env.configAllocOk script.optLevel env.infoFullPrec).2
     then [Event.configureCompiler] else []) ++
  (if dumpIR then [Event.openWrite (outputPath ++ ".ll".data)] else []) ++
  [.compile outputPath] ++
  (if saveInfoFile then
     [Event.openWrite (RSInfo.GetPath outputPath),
      Event.lockAcquire (RSInfo.GetPath outputPath),
      Event.writeInfo (RSInfo.GetPath outputPath)] else [])

/-- An environment in which every external step succeeds and a valid
cache entry is present on disk; used to instantiate the theorems at
concrete inputs. -/
def envAllOk : Env :=
  { extractOk := true, linkOk := true, lockObjOk := true, openObjOk := true,
    configAllocOk := true, configOk := true, compileOk := true,
    openInfoOk := true, lockInfoOk := true, infoWriteOk := true,
    sourceCreateOk := true, fuseOk := true, cacheEntryValid := true,
    infoFullPrec := false, buildFingerprint := "HostBuild".data,
    sha1Digest := List.replicate 20 1, junkHash := List.replicate 20 7,
    wrapperOptLevel := 3 }

theorem self_ne_append {α : Type} (p l : List α) (h : l ≠ []) :
    p ≠ p ++ l := by
  intro h2
  have hlen := congrArg List.length h2
  simp only [List.length_append] at hlen
  have : l.length = 0 := by omega
  exact h (List.length_eq_zero.mp this)

/-- A fully successful `compileScript` run: given that every external
step it reaches succeeds, the run returns `kSuccess`, the updated
configuration is the one `setupConfig` produced, and the trace is the
full success trace. -/
theorem compileScript_ok (arm : Bool) (cfg : Option CompilerConfig)
    (env : Env) (script : RSScript) (outputPath : Path)
    (sourceHash : List Nat) (cmdLine : Path) (chk : Option Path)
    (saveInfoFile dumpIR : Bool)
    (h1 : env.extractOk = true) (h2 : env.linkOk = true)
    (h3 : env.lockObjOk = true) (h4 : env.openObjOk = true)
    (h5 : (setupConfig arm cfg env.configAllocOk script.optLevel
            env.infoFullPrec).1.isSome)
    (h6 : (setupConfig arm cfg env.configAllocOk script.optLevel
            env.infoFullPrec).2 = true → env.configOk = true)
    (h7 : env.compileOk = true)
    (h8 : env.openInfoOk = true) (h9 : env.lockInfoOk = true)
    (h10 : env.infoWriteOk = true) :
    compileScript arm cfg env script outputPath sourceHash cmdLine chk
        saveInfoFile dumpIR =
      (ErrorCode.kSuccess,
       (setupConfig arm cfg env.configAllocOk script.optLevel
         env.infoFullPrec).1,
       successTrace arm cfg env script outputPath sourceHash cmdLine chk
         saveInfoFile dumpIR) := by
  rcases hsc : setupConfig arm cfg env.configAllocOk script.optLevel
      env.infoFullPrec with ⟨c2, changed⟩
  rw [hsc] at h5 h6
  simp only at h5 h6
  rcases c2 with _ | c
  · simp at h5
  · cases hch : changed
    · subst hch
      cases saveInfoFile <;>
        simp [compileScript, successTrace, h1, h2, h3, h4, h7, h8, h9,
          h10, hsc, checksumEvents]
    · subst hch
      have h6t := h6 rfl
      cases saveInfoFile <;>
        simp [compileScript, successTrace, h1, h2, h3, h4, h6t, h7, h8, h9,
          h10, hsc, checksumEvents]

/-- A `compileScript` run that returned `kSuccess` had every external
step it reached succeed. -/
theorem compileScript_success_flags (arm : Bool)
    (cfg : Option CompilerConfig) (env : Env) (script : RSScript)
    (outputPath : Path) (sourceHash : List Nat) (cmdLine : Path)
    (chk : Option Path) (saveInfoFile dumpIR : Bool)
    (h : (compileScript arm cfg env script outputPath sourceHash cmdLine
           chk saveInfoFile dumpIR).1 = ErrorCode.kSuccess) :
    env.extractOk = true ∧ env.linkOk = true ∧ env.lockObjOk = true ∧
    env.openObjOk = true ∧
    (setupConfig arm cfg env.configAllocOk script.optLevel
      env.infoFullPrec).1.isSome ∧
    ((setupConfig arm cfg env.configAllocOk script.optLevel
       env.infoFullPrec).2 = true → env.configOk = true) ∧
    env.compileOk = true ∧
    (saveInfoFile = true →
      env.openInfoOk = true ∧ env.lockInfoOk = true ∧
      env.infoWriteOk = true) := by
  rcases hsc : setupConfig arm cfg env.configAllocOk script.optLevel
      env.infoFullPrec with ⟨c2, changed⟩
  cases h1 : env.extractOk
  · exact absurd h (by simp [compileScript, h1])
  cases h2 : env.linkOk
  · exact absurd h (by simp [compileScript, h1, h2])
  cases h3 : env.lockObjOk
  · exact absurd h (by simp [compileScript, h1, h2, h3])
  cases h4 : env.openObjOk
  · exact absurd h (by simp [compileScript, h1, h2, h3, h4])
  rcases c2 with _ | c
  · exact absurd h (by simp [compileScript, h1, h2, h3, h4, hsc])
  cases hcfg : env.configOk
  · cases hch : changed
    · cases h7 : env.compileOk
      · exact absurd h
          (by simp [compileScript, h1, h2, h3, h4, hsc, hch, h7])
      cases hs : saveInfoFile
      · simp [hsc, hch, h1, h2, h3, h4, h7, hs]
      cases h8 : env.openInfoOk
      · exact absurd h
          (by simp [compileScript, h1, h2, h3, h4, hsc, hch, h7, hs, h8])
      cases h9 : env.lockInfoOk
      · exact absurd h
          (by simp [compileScript, h1, h2, h3, h4, hsc, hch, h7, hs, h8, h9])
      cases h10 : env.infoWriteOk
      · exact absurd h
          (by simp [compileScript, h1, h2, h3, h4, hsc, hch, h7, hs, h8,
            h9, h10])
      simp [hsc, hch, h1, h2, h3, h4, h7, hs, h8, h9, h10]
    · exact absurd h
        (by simp [compileScript, h1, h2, h3, h4, hsc, hch, hcfg])
  cases h7 : env.compileOk
  · exact absurd h
      (by cases hch : changed <;>
        simp [compileScript, h1, h2, h3, h4, hsc, hch, hcfg, h7])
  cases hs : saveInfoFile
  · simp [hsc, h1, h2, h3, h4, hcfg, h7, hs]
  cases h8 : env.openInfoOk
  · exact absurd h
      (by cases hch : changed <;>
        simp [compileScript, h1, h2, h3, h4, hsc, hch, hcfg, h7, hs, h8])
  cases h9 : env.lockInfoOk
  · exact absurd h
      (by cases hch : changed <;>
        simp [compileScript, h1, h2, h3, h4, hsc, hch, hcfg, h7, hs, h8, h9])
  cases h10 : env.infoWriteOk
  · exact absurd h
      (by cases hch : changed <;>
        simp [compileScript, h1, h2, h3, h4, hsc, hch, hcfg, h7, hs, h8,
          h9, h10])
  simp [hsc, h1, h2, h3, h4, hcfg, h7, hs, h8, h9, h10]

/-- A successful `build` run had a non-zero bitcode size, created the
source, and had its `compileScript` call succeed; its trace is the
hash-and-source prefix followed by the `compileScript` trace on the
computed output path. -/
theorem build_success (arm : Bool) (cfg : Option CompilerConfig)
    (env : Env) (d r : Path) (bc : List Nat) (n : Nat) (cmdLine : Path)
    (chk : Option Path) (dumpIR : Bool)
    (h : (build arm cfg env (some d) (some r) (some bc) n cmdLine chk
           dumpIR).1 = true) :
    n ≠ 0 ∧ env.sourceCreateOk = true ∧
    (compileScript arm cfg env ⟨env.wrapperOptLevel, false⟩
      (replaceExtension (pathAppend d r) ".o".data)
      env.sha1Digest cmdLine chk true dumpIR).1 = ErrorCode.kSuccess ∧
    (build arm cfg env (some d) (some r) (some bc) n cmdLine chk
      dumpIR).2.2 =
      Event.computeSha1 :: Event.createSource ::
      (compileScript arm cfg env ⟨env.wrapperOptLevel, false⟩
        (replaceExtension (pathAppend d r) ".o".data)
        env.sha1Digest cmdLine chk true dumpIR).2.2 := by
  by_cases hn : n = 0
  · exact absurd h (by simp [build, hn])
  cases hsrc : env.sourceCreateOk
  · exact absurd h (by simp [build, hn, hsrc])
  rcases hcs : compileScript arm cfg env ⟨env.wrapperOptLevel, false⟩
      (replaceExtension (pathAppend d r) ".o".data)
      env.sha1Digest cmdLine chk true dumpIR with ⟨st, c2, tr⟩
  simp [build, hn, hsrc, hcs] at h ⊢
  exact h

theorem mem_if_list {α : Type} (c : Bool) (l : List α) (a : α) :
    a ∈ (if c then l else ([] : List α)) ↔ c = true ∧ a ∈ l := by
  cases c <;> simp

theorem mem_checksumEvents (chk : Option Path) (a : Event) :
    a ∈ checksumEvents chk ↔
      ∃ cs, chk = some cs ∧ cs ≠ [] ∧ a = Event.addChecksumMeta cs := by
  rcases chk with _ | cs
  · simp [checksumEvents]
  · by_cases h : cs = [] <;> simp [checksumEvents, h]

/-- `setupConfig` leaves `mConfig` null only when it had no retained
configuration and the allocation failed; `changed` is false then. -/
theorem setupConfig_none (arm : Bool) (cfg : Option CompilerConfig)
    (allocOk : Bool) (so : Nat) (sfp : Bool)
    (h : (setupConfig arm cfg allocOk so sfp).1 = none) :
    (setupConfig arm cfg allocOk so sfp).2 = false ∧ cfg = none ∧
      allocOk = false := by
  rcases cfg with _ | c
  · cases allocOk
    · simp [setupConfig]
    · by_cases hp : defaultFullPrecision = sfp <;>
        cases arm <;> simp [setupConfig, hp] at h
  · by_cases h1 : c.optLevel = so <;> cases arm <;>
      simp only [setupConfig, h1, ne_eq, not_true_eq_false, not_false_eq_true,
        if_true, if_false, ite_not] at h <;>
      first
        | (split at h <;> simp at h)
        | simp at h

/-- On a repeat run, `setupConfig` reports a change exactly when the
script's optimization level differs from the retained one, or — under
`PROVIDE_ARM_CODEGEN` — the precision requirement differs. -/
theorem setupConfig_changed_some (arm : Bool) (c : CompilerConfig)
    (allocOk : Bool) (so : Nat) (sfp : Bool) :
    (setupConfig arm (some c) allocOk so sfp).2 = true ↔
      (c.optLevel ≠ so ∨ (arm = true ∧ c.fullPrecision ≠ sfp)) := by
  by_cases h1 : c.optLevel = so <;> by_cases h2 : c.fullPrecision = sfp <;>
    cases arm <;> simp [setupConfig, h1, h2]

/-- On the first run with a successful allocation, `setupConfig`
creates a configuration and reports a change. -/
theorem setupConfig_changed_none (arm : Bool) (so : Nat) (sfp : Bool) :
    (setupConfig arm none true so sfp).2 = true ∧
      (setupConfig arm none true so sfp).1.isSome := by
  by_cases hp : defaultFullPrecision = sfp <;> cases arm <;>
    simp [setupConfig, hp]

/-- Whatever fails, the trace of a `compileScript` run is a prefix of
the full success trace: the run performs an initial segment of the
successful run's operations and stops at the first failure. -/
theorem compileScript_trace_below (arm : Bool)
    (cfg : Option CompilerConfig) (env : Env) (script : RSScript)
    (outputPath : Path) (sourceHash : List Nat) (cmdLine : Path)
    (chk : Option Path) (saveInfoFile dumpIR : Bool) :
    (compileScript arm cfg env script outputPath sourceHash cmdLine chk
      saveInfoFile dumpIR).2.2 <+:
      successTrace arm cfg env script outputPath sourceHash cmdLine chk
        saveInfoFile dumpIR := by
  rcases hsc : setupConfig arm cfg env.configAllocOk script.optLevel
      env.infoFullPrec with ⟨c2, changed⟩
  cases h1 : env.extractOk
  case false =>
    simp [compileScript, successTrace, h1]
  all_goals cases h2 : env.linkOk
  case false =>
    simp [compileScript, successTrace, h1, h2]
  all_goals cases h3 : env.lockObjOk
  case false =>
    simp [compileScript, successTrace, h1, h2, h3]
  all_goals cases h4 : env.openObjOk
  case false =>
    simp [compileScript, successTrace, h1, h2, h3, h4]
  rcases c2 with _ | c
  case none =>
    have hch := (setupConfig_none arm cfg env.configAllocOk script.optLevel
      env.infoFullPrec (by rw [hsc])).1
    rw [hsc] at hch; simp only at hch
    subst hch
    simp [compileScript, successTrace, h1, h2, h3, h4, hsc]
  cases hch : changed
  all_goals subst hch
  all_goals
    cases hcfg : env.configOk <;> cases h7 : env.compileOk <;>
    cases hs : saveInfoFile <;> cases h8 : env.openInfoOk <;>
    cases h9 : env.lockInfoOk <;> cases h10 : env.infoWriteOk <;>
    simp [compileScript, successTrace, h1, h2, h3, h4, h7, h8, h9,
      h10, hcfg, hs, hsc]

/-- Once the lock and open of the output file succeed and a
configuration exists (with a successful reconfiguration when one was
needed), the run always reaches the compiler invocation: everything up
to and including the `compile` operation is performed. -/
theorem compileScript_reach_compile (arm : Bool)
    (cfg : Option CompilerConfig) (env : Env) (script : RSScript)
    (outputPath : Path) (sourceHash : List Nat) (cmdLine : Path)
    (chk : Option Path) (saveInfoFile dumpIR : Bool)
    (h1 : env.extractOk = true) (h2 : env.linkOk = true)
    (h3 : env.lockObjOk = true) (h4 : env.openObjOk = true)
    (h5 : (setupConfig arm cfg env.configAllocOk script.optLevel
            env.infoFullPrec).1.isSome)
    (h6 : (setupConfig arm cfg env.configAllocOk script.optLevel
            env.infoFullPrec).2 = true → env.configOk = true) :
    successTrace arm cfg env script outputPath sourceHash cmdLine chk
        false dumpIR <+:
      (compileScript arm cfg env script outputPath sourceHash cmdLine chk
        saveInfoFile dumpIR).2.2 := by
  rcases hsc : setupConfig arm cfg env.configAllocOk script.optLevel
      env.infoFullPrec with ⟨c2, changed⟩
  rw [hsc] at h5 h6
  simp only at h5 h6
  rcases c2 with _ | c
  · simp at h5
  cases hch : changed
  all_goals subst hch
  · cases h7 : env.compileOk <;> cases hs : saveInfoFile <;>
      cases h8 : env.openInfoOk <;> cases h9 : env.lockInfoOk <;>
      cases h10 : env.infoWriteOk <;>
      simp [compileScript, successTrace, h1, h2, h3, h4, h7, h8, h9,
        h10, hs, hsc]
  · have hcfg := h6 rfl
    cases h7 : env.compileOk <;> cases hs : saveInfoFile <;>
      cases h8 : env.openInfoOk <;> cases h9 : env.lockInfoOk <;>
      cases h10 : env.infoWriteOk <;>
      simp [compileScript, successTrace, h1, h2, h3, h4, hcfg, h7, h8,
        h9, h10, hs, hsc]

/-- Exhaustive description of the operations that can appear in a
success trace, each with the condition under which it is present. -/
theorem mem_successTrace (arm : Bool) (cfg : Option CompilerConfig)
    (env : Env) (script : RSScript) (outputPath : Path)
    (sourceHash : List Nat) (cmdLine : Path) (chk : Option Path)
    (saveInfoFile dumpIR : Bool) (e : Event)
    (he : e ∈ successTrace arm cfg env script outputPath sourceHash
            cmdLine chk saveInfoFile dumpIR) :
    (∃ cs, e = Event.addChecksumMeta cs) ∨
    e = Event.extractInfo sourceHash cmdLine env.buildFingerprint ∨
    e = Event.linkRuntime ∨
    e = Event.lockAcquire outputPath ∨
    e = Event.openWrite outputPath ∨
    ((setupConfig arm cfg env.configAllocOk script.optLevel
        env.infoFullPrec).2 = true ∧ e = Event.configureCompiler) ∨
    (dumpIR = true ∧ e = Event.openWrite (outputPath ++ ".ll".data)) ∨
    e = Event.compile outputPath ∨
    (saveInfoFile = true ∧
      (e = Event.openWrite (RSInfo.GetPath outputPath) ∨
       e = Event.lockAcquire (RSInfo.GetPath outputPath) ∨
       e = Event.writeInfo (RSInfo.GetPath outputPath))) := by
  simp only [successTrace, List.mem_append, List.mem_cons,
    List.mem_singleton, mem_checksumEvents, mem_if_list] at he
  tauto

/-- Index of the first occurrence of `e` in `l` (length of `l` when
absent). -/
def firstIdx : List Event → Event → Nat
  | [], _ => 0
  | x :: xs, e => if x = e then 0 else firstIdx xs e + 1

def envCompileFail : Env := { envAllOk with compileOk := false }

def envLockFail : Env := { envAllOk with lockObjOk := false }

def envOpenFail : Env := { envAllOk with openObjOk := false }

def envBadSource : Env := { envAllOk with extractOk := false }

def envInfoWriteFail : Env := { envAllOk with infoWriteOk := false }

/-! ## Claims -/

/-- C2 (counterexample): a serialized dependency-table item does not
occupy 24 bytes (4-byte string index plus inline 20-byte hash); its
encoding is 8 bytes. -/
theorem C2_item_not_24_bytes :
    ¬ ((DependencyTableItem.encode ⟨1, 2⟩).length = 24) := by decide

/-- C2 (amended): every serialized dependency-table item consists of a
4-byte string index for the dependency name followed by a 4-byte
string index referencing the 20-byte SHA-1 stored in the string pool,
so one dependency item occupies 8 bytes on disk. -/
theorem C2_item_two_indices_8_bytes (it : DependencyTableItem) :
    (DependencyTableItem.encode it).length = 8 ∧
    (DependencyTableItem.encode it).take 4 = encodeU32 it.id ∧
    (DependencyTableItem.encode it).drop 4 = encodeU32 it.sha1 := by
  simp [DependencyTableItem.encode, encodeU32]

/-- C3 (code bug): with kernel fusion succeeding and the compilation
failing, `buildScriptGroup` still returns `true` — the C++ discards
`compileScript`'s status — although the very `compileScript` call it
made (same arguments) returned an error. -/
theorem C3_group_masks_compile_failure :
    (buildScriptGroup false none envCompileFail "grp.bc".data false).1
        = true ∧
    (compileScript false none envCompileFail ⟨3, false⟩
        (replaceExtension "grp.bc".data ".o".data)
        envCompileFail.junkHash [] none true false).1 =
      ErrorCode.kErrInvalidSource :=
  ⟨rfl, rfl⟩

/-- C4 (code bug): in the sidecar step the info file is opened — and
truncated — strictly before the lock scoped to the sidecar path is
acquired, so the sidecar is opened while its lock is not held. -/
theorem C4_sidecar_opened_before_lock :
    Event.openWrite (RSInfo.GetPath "out.o".data) ∈
      (compileScript false none envAllOk ⟨3, false⟩ "out.o".data
        (List.replicate 20 1) [] none true false).2.2 ∧
    Event.lockAcquire (RSInfo.GetPath "out.o".data) ∈
      (compileScript false none envAllOk ⟨3, false⟩ "out.o".data
        (List.replicate 20 1) [] none true false).2.2 ∧
    firstIdx
        (compileScript false none envAllOk ⟨3, false⟩ "out.o".data
          (List.replicate 20 1) [] none true false).2.2
        (Event.openWrite (RSInfo.GetPath "out.o".data)) <
      firstIdx
        (compileScript false none envAllOk ⟨3, false⟩ "out.o".data
          (List.replicate 20 1) [] none true false).2.2
        (Event.lockAcquire (RSInfo.GetPath "out.o".data)) := by
  refine ⟨by decide, by decide, by decide⟩

/-- C5 (counterexample): a lock-acquisition failure on the output path
surfaces exactly the same error value, `kErrInvalidSource`, as an
output-file open (I/O) failure and as an invalid-source failure:
nothing in the result distinguishes them for the caller. -/
theorem C5_lock_error_indistinct :
    (compileScript false none envLockFail ⟨3, false⟩ "out.o".data
        (List.replicate 20 1) [] none true false).1 =
      ErrorCode.kErrInvalidSource ∧
    (compileScript false none envOpenFail ⟨3, false⟩ "out.o".data
        (List.replicate 20 1) [] none true false).1 =
      ErrorCode.kErrInvalidSource ∧
    (compileScript false none envBadSource ⟨3, false⟩ "out.o".data
        (List.replicate 20 1) [] none true false).1 =
      ErrorCode.kErrInvalidSource :=
  ⟨rfl, rfl, rfl⟩

/-- C5 (amended): when lock acquisition on the output path fails the
build fails, but with `kErrInvalidSource` — the same single error code
returned for I/O and invalid-source failures — so the caller cannot
tell a lock failure apart to decide on a retry. -/
theorem C5_lock_failure_collapsed (arm : Bool)
    (cfg : Option CompilerConfig) (env : Env) (script : RSScript)
    (outputPath : Path) (sourceHash : List Nat) (cmdLine : Path)
    (chk : Option Path) (saveInfoFile dumpIR : Bool)
    (h1 : env.extractOk = true) (h2 : env.linkOk = true)
    (h3 : env.lockObjOk = false) :
    (compileScript arm cfg env script outputPath sourceHash cmdLine chk
      saveInfoFile dumpIR).1 = ErrorCode.kErrInvalidSource := by
  simp [compileScript, h1, h2, h3]

/-- C5 witness for the amended theorem at a concrete input. -/
theorem C5_lock_failure_collapsed_witness :
    envLockFail.extractOk = true ∧ envLockFail.linkOk = true ∧
    envLockFail.lockObjOk = false ∧
    (compileScript false none envLockFail ⟨3, false⟩ "out.o".data
        (List.replicate 20 1) [] none true false).1 =
      ErrorCode.kErrInvalidSource :=
  ⟨rfl, rfl, rfl,
    C5_lock_failure_collapsed false none envLockFail ⟨3, false⟩
      "out.o".data (List.replicate 20 1) [] none true false rfl rfl rfl⟩

/-- C10: a `build` call with a null cache directory, a null resource
name, a null bitcode pointer, or a zero bitcode size returns `false`
with an empty trace — no hash computation, no source or script
creation, and no compiler invocation.  (`pBitcodeSize` is a C++
`size_t`, an unsigned type, so "negative" sizes are not representable
and the failing size case is exactly zero.) -/
theorem C10_invalid_params_reject (arm : Bool)
    (cfg : Option CompilerConfig) (env : Env)
    (cacheDir resName : Option Path) (bitcode : Option (List Nat))
    (n : Nat) (cmdLine : Path) (chk : Option Path) (dumpIR : Bool)
    (h : cacheDir = none ∨ resName = none ∨ bitcode = none ∨ n = 0) :
    build arm cfg env cacheDir resName bitcode n cmdLine chk dumpIR =
      (false, cfg, []) := by
  rcases h with h | h | h | h
  · subst h; rcases resName with _ | r <;> simp [build]
  · subst h; rcases cacheDir with _ | d <;> simp [build]
  · subst h
    rcases cacheDir with _ | d <;> rcases resName with _ | r <;>
      simp [build]
  · subst h
    rcases cacheDir with _ | d <;> rcases resName with _ | r <;>
      rcases bitcode with _ | b <;> simp [build]

/-- C10 witness at a concrete input: a zero bitcode size. -/
theorem C10_invalid_params_reject_witness :
    ((some "cache".data : Option Path) = none ∨
     (some "foo".data : Option Path) = none ∨
     (some [1, 2] : Option (List Nat)) = none ∨ (0 : Nat) = 0) ∧
    build false none envAllOk (some "cache".data) (some "foo".data)
        (some [1, 2]) 0 [] none false = (false, none, []) :=
  ⟨Or.inr (Or.inr (Or.inr rfl)),
    C10_invalid_params_reject false none envAllOk (some "cache".data)
      (some "foo".data) (some [1, 2]) 0 [] none false
      (Or.inr (Or.inr (Or.inr rfl)))⟩

/-- C1 (counterexample): with a valid cache entry already present
(`envAllOk.cacheEntryValid = true`) and every external step
succeeding, `build` returns success AND invokes the external compiler:
there is no cache-hit path that returns success without compiling. -/
theorem C1_hit_still_invokes_compiler :
    envAllOk.cacheEntryValid = true ∧
    (build false none envAllOk (some "cache".data) (some "foo".data)
        (some [1, 2, 3]) 3 [] none false).1 = true ∧
    Event.compile "cache/foo.o".data ∈
      (build false none envAllOk (some "cache".data) (some "foo".data)
        (some [1, 2, 3]) 3 [] none false).2.2 := by
  exact ⟨rfl, rfl, by decide⟩

/-- C1 (amended): `build` never consults any cache entry — its entire
result is unchanged by the presence or absence of a valid entry on
disk — and every successful build invokes the external compiler on the
computed output path: a fresh compile happens on every successful
call. -/
theorem C1_no_cache_always_compiles (arm : Bool)
    (cfg : Option CompilerConfig) (env : Env) (d r : Path)
    (bc : List Nat) (n : Nat) (cmdLine : Path) (chk : Option Path)
    (dumpIR : Bool) (b : Bool) :
    build arm cfg { env with cacheEntryValid := b } (some d) (some r)
        (some bc) n cmdLine chk dumpIR =
      build arm cfg env (some d) (some r) (some bc) n cmdLine chk
        dumpIR ∧
    ((build arm cfg env (some d) (some r) (some bc) n cmdLine chk
        dumpIR).1 = true →
      Event.compile (replaceExtension (pathAppend d r) ".o".data) ∈
        (build arm cfg env (some d) (some r) (some bc) n cmdLine chk
          dumpIR).2.2) := by
  constructor
  · cases env; rfl
  · intro h
    obtain ⟨hn, hsrc, hcs, htr⟩ :=
      build_success arm cfg env d r bc n cmdLine chk dumpIR h
    obtain ⟨e1, e2, e3, e4, e5, e6, e7, e8⟩ :=
      compileScript_success_flags arm cfg env ⟨env.wrapperOptLevel, false⟩
        (replaceExtension (pathAppend d r) ".o".data) env.sha1Digest
        cmdLine chk true dumpIR hcs
    have heq := compileScript_ok arm cfg env ⟨env.wrapperOptLevel, false⟩
      (replaceExtension (pathAppend d r) ".o".data) env.sha1Digest
      cmdLine chk true dumpIR e1 e2 e3 e4 e5 e6 e7 (e8 rfl).1
      (e8 rfl).2.1 (e8 rfl).2.2
    rw [htr, heq]
    simp [successTrace]

/-- C1 witness for the amended theorem at a concrete input. -/
theorem C1_no_cache_always_compiles_witness :
    (build false none envAllOk (some "cache".data) (some "foo".data)
        (some [1]) 1 [] none false).1 = true ∧
    Event.compile (replaceExtension (pathAppend "cache".data "foo".data)
        ".o".data) ∈
      (build false none envAllOk (some "cache".data) (some "foo".data)
        (some [1]) 1 [] none false).2.2 :=
  ⟨by decide,
    (C1_no_cache_always_compiles false none envAllOk "cache".data
      "foo".data [1] 1 [] none false true).2 (by decide)⟩

/-- Under successful lock and open of the output file, the retained
configuration after `compileScript` is exactly what `setupConfig`
produced. -/
theorem compileScript_config_eq (arm : Bool)
    (cfg : Option CompilerConfig) (env : Env) (script : RSScript)
    (outputPath : Path) (sourceHash : List Nat) (cmdLine : Path)
    (chk : Option Path) (saveInfoFile dumpIR : Bool)
    (h1 : env.extractOk = true) (h2 : env.linkOk = true)
    (h3 : env.lockObjOk = true) (h4 : env.openObjOk = true) :
    (compileScript arm cfg env script outputPath sourceHash cmdLine chk
        saveInfoFile dumpIR).2.1 =
      (setupConfig arm cfg env.configAllocOk script.optLevel
        env.infoFullPrec).1 := by
  rcases hsc : setupConfig arm cfg env.configAllocOk script.optLevel
      env.infoFullPrec with ⟨c2, changed⟩
  simp only [hsc]
  rcases c2 with _ | c
  · have hch := (setupConfig_none arm cfg env.configAllocOk
      script.optLevel env.infoFullPrec (by rw [hsc])).1
    rw [hsc] at hch; simp only at hch
    subst hch
    simp [compileScript, h1, h2, h3, h4, hsc]
  cases hch : changed
  all_goals subst hch
  all_goals
    cases hcfg : env.configOk <;> cases h7 : env.compileOk <;>
    cases hs : saveInfoFile <;> cases h8 : env.openInfoOk <;>
    cases h9 : env.lockInfoOk <;> cases h10 : env.infoWriteOk <;>
    simp [compileScript, h1, h2, h3, h4, hcfg, h7, h8, h9, h10, hs, hsc]

/-- Under successful lock and open of the output file, the external
compiler is reconfigured (a `configureCompiler` operation appears in
the trace) exactly when `setupConfig` reported a change. -/
theorem configureCompiler_mem_iff (arm : Bool)
    (cfg : Option CompilerConfig) (env : Env) (script : RSScript)
    (outputPath : Path) (sourceHash : List Nat) (cmdLine : Path)
    (chk : Option Path) (saveInfoFile dumpIR : Bool)
    (h1 : env.extractOk = true) (h2 : env.linkOk = true)
    (h3 : env.lockObjOk = true) (h4 : env.openObjOk = true) :
    (Event.configureCompiler ∈
        (compileScript arm cfg env script outputPath sourceHash cmdLine
          chk saveInfoFile dumpIR).2.2) ↔
      (setupConfig arm cfg env.configAllocOk script.optLevel
        env.infoFullPrec).2 = true := by
  rcases hsc : setupConfig arm cfg env.configAllocOk script.optLevel
      env.infoFullPrec with ⟨c2, changed⟩
  simp only [hsc]
  rcases c2 with _ | c
  · have hch := (setupConfig_none arm cfg env.configAllocOk
      script.optLevel env.infoFullPrec (by rw [hsc])).1
    rw [hsc] at hch; simp only at hch
    subst hch
    simp [compileScript, h1, h2, h3, h4, hsc, mem_checksumEvents]
  cases hch : changed
  all_goals subst hch
  · -- no setting changed: `configureCompiler` never appears
    simp only [iff_false, Bool.false_eq_true]
    intro hmem
    have hm2 := (compileScript_trace_below arm cfg env script outputPath
      sourceHash cmdLine chk saveInfoFile dumpIR).subset hmem
    have hd := mem_successTrace arm cfg env script outputPath sourceHash
      cmdLine chk saveInfoFile dumpIR Event.configureCompiler hm2
    rcases hd with ⟨cs, hc⟩ | hc | hc | hc | hc | ⟨hcond, -⟩ |
        ⟨-, hc⟩ | hc | ⟨-, hc | hc | hc⟩ <;>
      first
        | simp at hc
        | (rw [hsc] at hcond; simp at hcond)
  · -- a setting changed: the compiler is reconfigured
    simp only [iff_true]
    cases hcfg : env.configOk
    · simp [compileScript, h1, h2, h3, h4, hsc, hcfg,
        mem_checksumEvents]
    · have hreach := compileScript_reach_compile arm cfg env script
        outputPath sourceHash cmdLine chk saveInfoFile dumpIR h1 h2 h3 h4
        (by simp [hsc]) (by intro _; exact hcfg)
      refine hreach.subset ?_
      simp [successTrace, hsc]

/-- C8: on a compile after the first on a given driver instance, the
external compiler is reconfigured if and only if the optimization
level — or, under `PROVIDE_ARM_CODEGEN`, the full-precision mode —
differs from the configuration retained from the previous compile; on
the first compile (no retained configuration, allocation succeeding) a
configuration is always created and applied. -/
theorem C8_reconfigure_iff_settings_changed (arm : Bool)
    (cfg : Option CompilerConfig) (env : Env) (script : RSScript)
    (outputPath : Path) (sourceHash : List Nat) (cmdLine : Path)
    (chk : Option Path) (saveInfoFile dumpIR : Bool)
    (h1 : env.extractOk = true) (h2 : env.linkOk = true)
    (h3 : env.lockObjOk = true) (h4 : env.openObjOk = true) :
    (∀ c, cfg = some c →
      (Event.configureCompiler ∈
          (compileScript arm cfg env script outputPath sourceHash
            cmdLine chk saveInfoFile dumpIR).2.2 ↔
        (c.optLevel ≠ script.optLevel ∨
          (arm = true ∧ c.fullPrecision ≠ env.infoFullPrec)))) ∧
    (cfg = none → env.configAllocOk = true →
      ((compileScript arm cfg env script outputPath sourceHash cmdLine
          chk saveInfoFile dumpIR).2.1.isSome ∧
        Event.configureCompiler ∈
          (compileScript arm cfg env script outputPath sourceHash
            cmdLine chk saveInfoFile dumpIR).2.2)) := by
  constructor
  · rintro c rfl
    rw [configureCompiler_mem_iff arm (some c) env script outputPath
      sourceHash cmdLine chk saveInfoFile dumpIR h1 h2 h3 h4]
    exact setupConfig_changed_some arm c env.configAllocOk
      script.optLevel env.infoFullPrec
  · rintro rfl hao
    obtain ⟨hch, hsome⟩ := setupConfig_changed_none arm script.optLevel
      env.infoFullPrec
    constructor
    · rw [compileScript_config_eq arm none env script outputPath
        sourceHash cmdLine chk saveInfoFile dumpIR h1 h2 h3 h4, hao]
      exact hsome
    · rw [configureCompiler_mem_iff arm none env script outputPath
        sourceHash cmdLine chk saveInfoFile dumpIR h1 h2 h3 h4, hao]
      exact hch

/-- C8 witness at a concrete input: a retained configuration with
optimization level 2, a script requesting level 3. -/
theorem C8_reconfigure_iff_settings_changed_witness :
    envAllOk.extractOk = true ∧ envAllOk.linkOk = true ∧
    envAllOk.lockObjOk = true ∧ envAllOk.openObjOk = true ∧
    (Event.configureCompiler ∈
        (compileScript false (some ⟨2, false⟩) envAllOk ⟨3, false⟩
          "out.o".data (List.replicate 20 1) [] none true false).2.2 ↔
      ((⟨2, false⟩ : CompilerConfig).optLevel ≠
          (⟨3, false⟩ : RSScript).optLevel ∨
        (false = true ∧
          (⟨2, false⟩ : CompilerConfig).fullPrecision ≠
            envAllOk.infoFullPrec))) :=
  ⟨rfl, rfl, rfl, rfl,
    (C8_reconfigure_iff_settings_changed false (some ⟨2, false⟩) envAllOk
      ⟨3, false⟩ "out.o".data (List.replicate 20 1) [] none true false
      rfl rfl rfl rfl).1 ⟨2, false⟩ rfl⟩

/-- C6: when the sidecar step (open, lock, or write of the info file)
fails after the object has been successfully compiled and written, the
build reports failure, yet the compiler did run on the object path,
and no operation in the entire run other than the object-file open and
the compile itself creates, truncates or writes the object path — the
failing sidecar step leaves the already-written object file in place,
unmodified. -/
theorem C6_object_survives_sidecar_failure (arm : Bool)
    (cfg : Option CompilerConfig) (env : Env) (d r : Path)
    (bc : List Nat) (n : Nat) (cmdLine : Path) (chk : Option Path)
    (dumpIR : Bool)
    (hn : n ≠ 0) (hsrc : env.sourceCreateOk = true)
    (h1 : env.extractOk = true) (h2 : env.linkOk = true)
    (h3 : env.lockObjOk = true) (h4 : env.openObjOk = true)
    (h5 : (setupConfig arm cfg env.configAllocOk env.wrapperOptLevel
            env.infoFullPrec).1.isSome)
    (h6 : (setupConfig arm cfg env.configAllocOk env.wrapperOptLevel
            env.infoFullPrec).2 = true → env.configOk = true)
    (_h7 : env.compileOk = true)
    (hfail : env.openInfoOk = false ∨ env.lockInfoOk = false ∨
      env.infoWriteOk = false) :
    (build arm cfg env (some d) (some r) (some bc) n cmdLine chk
        dumpIR).1 = false ∧
    Event.compile (replaceExtension (pathAppend d r) ".o".data) ∈
      (build arm cfg env (some d) (some r) (some bc) n cmdLine chk
        dumpIR).2.2 ∧
    ∀ e ∈ (build arm cfg env (some d) (some r) (some bc) n cmdLine chk
        dumpIR).2.2,
      e.touches (replaceExtension (pathAppend d r) ".o".data) = true →
        (e = Event.openWrite (replaceExtension (pathAppend d r)
            ".o".data) ∨
         e = Event.compile (replaceExtension (pathAppend d r)
            ".o".data)) := by
  have hst : (compileScript arm cfg env ⟨env.wrapperOptLevel, false⟩
      (replaceExtension (pathAppend d r) ".o".data) env.sha1Digest
      cmdLine chk true dumpIR).1 ≠ ErrorCode.kSuccess := by
    intro hsucc
    obtain ⟨-, -, -, -, -, -, -, e8⟩ :=
      compileScript_success_flags arm cfg env ⟨env.wrapperOptLevel, false⟩
        (replaceExtension (pathAppend d r) ".o".data) env.sha1Digest
        cmdLine chk true dumpIR hsucc
    obtain ⟨o1, o2, o3⟩ := e8 rfl
    rcases hfail with hf | hf | hf <;> simp_all
  have hreach := compileScript_reach_compile arm cfg env
    ⟨env.wrapperOptLevel, false⟩
    (replaceExtension (pathAppend d r) ".o".data) env.sha1Digest
    cmdLine chk true dumpIR h1 h2 h3 h4 h5 h6
  have hpre := compileScript_trace_below arm cfg env
    ⟨env.wrapperOptLevel, false⟩
    (replaceExtension (pathAppend d r) ".o".data) env.sha1Digest
    cmdLine chk true dumpIR
  rcases hcs : compileScript arm cfg env ⟨env.wrapperOptLevel, false⟩
      (replaceExtension (pathAppend d r) ".o".data) env.sha1Digest
      cmdLine chk true dumpIR with ⟨st, c2, tr⟩
  rw [hcs] at hst hreach hpre
  simp only at hst hreach hpre
  refine ⟨?_, ?_, ?_⟩
  · simp [build, hn, hsrc, hcs, hst]
  · have : Event.compile (replaceExtension (pathAppend d r) ".o".data) ∈
        tr := by
      refine hreach.subset ?_
      simp [successTrace]
    simp [build, hn, hsrc, hcs, this]
  · intro e he ht
    simp [build, hn, hsrc, hcs] at he
    rcases he with rfl | rfl | he
    · simp [Event.touches] at ht
    · simp [Event.touches] at ht
    have hd := mem_successTrace arm cfg env ⟨env.wrapperOptLevel, false⟩
      (replaceExtension (pathAppend d r) ".o".data) env.sha1Digest
      cmdLine chk true dumpIR e (hpre.subset he)
    rcases hd with ⟨cs, rfl⟩ | rfl | rfl | rfl | rfl | ⟨-, rfl⟩ |
        ⟨-, rfl⟩ | rfl | ⟨-, rfl | rfl | rfl⟩
    · simp [Event.touches] at ht
    · simp [Event.touches] at ht
    · simp [Event.touches] at ht
    · simp [Event.touches] at ht
    · exact Or.inl rfl
    · simp [Event.touches] at ht
    · exfalso
      simp only [Event.touches, decide_eq_true_eq] at ht
      exact self_ne_append (replaceExtension (pathAppend d r) ".o".data)
        ".ll".data (by decide) ht.symm
    · exact Or.inr rfl
    · exfalso
      simp only [Event.touches, RSInfo.GetPath, decide_eq_true_eq] at ht
      exact self_ne_append (replaceExtension (pathAppend d r) ".o".data)
        ".info".data (by decide) ht.symm
    · simp [Event.touches] at ht
    · exfalso
      simp only [Event.touches, RSInfo.GetPath, decide_eq_true_eq] at ht
      exact self_ne_append (replaceExtension (pathAppend d r) ".o".data)
        ".info".data (by decide) ht.symm

/-- C6 witness at a concrete input: the info write fails, the object
was compiled, the build returns false, and nothing after the compile
touches the object path. -/
theorem C6_object_survives_sidecar_failure_witness :
    (build false none envInfoWriteFail (some "cache".data)
        (some "foo".data) (some [1, 2]) 2 [] none false).1 = false ∧
    Event.compile (replaceExtension (pathAppend "cache".data "foo".data)
        ".o".data) ∈
      (build false none envInfoWriteFail (some "cache".data)
        (some "foo".data) (some [1, 2]) 2 [] none false).2.2 ∧
    ∀ e ∈ (build false none envInfoWriteFail (some "cache".data)
        (some "foo".data) (some [1, 2]) 2 [] none false).2.2,
      e.touches (replaceExtension (pathAppend "cache".data "foo".data)
          ".o".data) = true →
        (e = Event.openWrite (replaceExtension
            (pathAppend "cache".data "foo".data) ".o".data) ∨
         e = Event.compile (replaceExtension
            (pathAppend "cache".data "foo".data) ".o".data)) :=
  C6_object_survives_sidecar_failure false none envInfoWriteFail
    "cache".data "foo".data [1, 2] 2 [] none false (by decide) rfl rfl
    rfl rfl rfl (by decide) (fun _ => rfl) rfl
    (Or.inr (Or.inr rfl))

/-- C7: `buildForCompatLib` extracts with a zeroed 20-byte hash and
empty command-line and fingerprint placeholders, requests embedding of
the record in the object artifact, never consults a cache entry (its
result is independent of the cache state), never writes — or even
opens — a separate sidecar file, and on success has always invoked the
compiler afresh. -/
theorem C7_compat_lib_mode (arm : Bool) (cfg : Option CompilerConfig)
    (env : Env) (script : RSScript) (out : Path) (chk : Option Path)
    (dumpIR : Bool) (b : Bool) :
    buildForCompatLib arm cfg { env with cacheEntryValid := b } script
        out chk dumpIR =
      buildForCompatLib arm cfg env script out chk dumpIR ∧
    zeroHash = List.replicate 20 0 ∧
    (buildForCompatLib arm cfg env script out chk dumpIR).2.2.1.head? =
      some (Event.extractInfo zeroHash [] []) ∧
    (env.extractOk = true →
      (buildForCompatLib arm cfg env script out chk
        dumpIR).2.2.2.embedInfo = true) ∧
    (∀ h c f, Event.extractInfo h c f ∈
        (buildForCompatLib arm cfg env script out chk dumpIR).2.2.1 →
      h = zeroHash ∧ c = []) ∧
    (∀ p, Event.writeInfo p ∉
        (buildForCompatLib arm cfg env script out chk dumpIR).2.2.1) ∧
    Event.openWrite (RSInfo.GetPath out) ∉
      (buildForCompatLib arm cfg env script out chk dumpIR).2.2.1 ∧
    ((buildForCompatLib arm cfg env script out chk dumpIR).1 = true →
      Event.compile out ∈
        (buildForCompatLib arm cfg env script out chk dumpIR).2.2.1) := by
  rcases hcs : compileScript arm cfg env { script with embedInfo := true }
      out zeroHash [] chk false dumpIR with ⟨st, c2, tr⟩
  have hpre := compileScript_trace_below arm cfg env
    { script with embedInfo := true } out zeroHash [] chk
    false dumpIR
  rw [hcs] at hpre
  simp only at hpre
  refine ⟨by cases env; rfl, rfl, ?_, ?_, ?_, ?_, ?_, ?_⟩
  · cases hex : env.extractOk <;> simp [buildForCompatLib, hex, hcs]
  · intro hex
    simp [buildForCompatLib, hex, hcs]
  · intro h c f hm
    cases hex : env.extractOk
    · simp [buildForCompatLib, hex] at hm
      exact ⟨hm.1, hm.2.1⟩
    · simp [buildForCompatLib, hex, hcs] at hm
      rcases hm with ⟨hm1, hm2, -⟩ | hm
      · exact ⟨hm1, hm2⟩
      · have hd := mem_successTrace arm cfg env
          { script with embedInfo := true } out zeroHash []
          chk false dumpIR _ (hpre.subset hm)
        rcases hd with ⟨cs, hc⟩ | hc | hc | hc | hc | ⟨-, hc⟩ |
            ⟨-, hc⟩ | hc | ⟨hfalse, -⟩
        · exact absurd hc (by simp)
        · have := (Event.extractInfo.injEq _ _ _ _ _ _).mp hc
          exact ⟨this.1, this.2.1⟩
        · exact absurd hc (by simp)
        · exact absurd hc (by simp)
        · exact absurd hc (by simp)
        · exact absurd hc (by simp)
        · exact absurd hc (by simp)
        · exact absurd hc (by simp)
        · exact absurd hfalse (by simp)
  · intro p hm
    cases hex : env.extractOk
    · simp [buildForCompatLib, hex] at hm
    · simp [buildForCompatLib, hex, hcs] at hm
      have hd := mem_successTrace arm cfg env
        { script with embedInfo := true } out zeroHash []
        chk false dumpIR _ (hpre.subset hm)
      rcases hd with ⟨cs, hc⟩ | hc | hc | hc | hc | ⟨-, hc⟩ |
          ⟨-, hc⟩ | hc | ⟨hfalse, -⟩
      · exact absurd hc (by simp)
      · exact absurd hc (by simp)
      · exact absurd hc (by simp)
      · exact absurd hc (by simp)
      · exact absurd hc (by simp)
      · exact absurd hc (by simp)
      · exact absurd hc (by simp)
      · exact absurd hc (by simp)
      · exact absurd hfalse (by simp)
  · intro hm
    cases hex : env.extractOk
    · simp [buildForCompatLib, hex] at hm
    · simp [buildForCompatLib, hex, hcs] at hm
      have hd := mem_successTrace arm cfg env
        { script with embedInfo := true } out zeroHash []
        chk false dumpIR _ (hpre.subset hm)
      rcases hd with ⟨cs, hc⟩ | hc | hc | hc | hc | ⟨-, hc⟩ |
          ⟨-, hc⟩ | hc | ⟨hfalse, -⟩
      · exact absurd hc (by simp)
      · exact absurd hc (by simp)
      · exact absurd hc (by simp)
      · exact absurd hc (by simp)
      · have := (Event.openWrite.injEq _ _).mp hc
        exact self_ne_append out ".info".data (by decide)
          (by simpa [RSInfo.GetPath] using this.symm)
      · exact absurd hc (by simp)
      · have := (Event.openWrite.injEq _ _).mp hc
        have hlen := congrArg List.length this
        simp [RSInfo.GetPath] at hlen
      · exact absurd hc (by simp)
      · exact absurd hfalse (by simp)
  · intro hres
    cases hex : env.extractOk
    · exact absurd hres (by simp [buildForCompatLib, hex])
    · simp [buildForCompatLib, hex, hcs] at hres ⊢
      obtain ⟨e1, e2, e3, e4, e5, e6, -, -⟩ :=
        compileScript_success_flags arm cfg env
          { script with embedInfo := true } out zeroHash []
          chk false dumpIR (by rw [hcs]; exact hres)
      have hreach := compileScript_reach_compile arm cfg env
        { script with embedInfo := true } out zeroHash []
        chk false dumpIR e1 e2 e3 e4 e5 e6
      rw [hcs] at hreach
      simp only at hreach
      exact hreach.subset (by simp [successTrace])

/-- C7 witness at a concrete input, discharging the conditional
conjuncts: extraction succeeds and the build succeeds. -/
theorem C7_compat_lib_mode_witness :
    (buildForCompatLib false none envAllOk ⟨3, false⟩ "out.so".data none
        false).2.2.2.embedInfo = true ∧
    Event.compile "out.so".data ∈
      (buildForCompatLib false none envAllOk ⟨3, false⟩ "out.so".data
        none false).2.2.1 :=
  ⟨(C7_compat_lib_mode false none envAllOk ⟨3, false⟩ "out.so".data none
      false true).2.2.2.1 rfl,
    (C7_compat_lib_mode false none envAllOk ⟨3, false⟩ "out.so".data none
      false true).2.2.2.2.2.2.2 (by decide)⟩

theorem pathAppend_no_sep (d r : Path) (hd : d ≠ [])
    (hlast : d.getLast? ≠ some '/') (hr : r.head? ≠ some '/') :
    pathAppend d r = d ++ '/' :: r := by
  simp [pathAppend, hd, hlast, hr]

theorem takeWhile_append_stop (p : Char → Bool) (l1 l2 : List Char)
    (a : Char) (h1 : ∀ x ∈ l1, p x = true) (ha : p a = false) :
    (l1 ++ a :: l2).takeWhile p = l1 := by
  induction l1 with
  | nil => simp [List.takeWhile_cons, ha]
  | cons x xs ih =>
    have hx := h1 x (List.mem_cons_self x xs)
    simp [List.takeWhile_cons, hx,
      ih (fun y hy => h1 y (List.mem_cons_of_mem x hy))]

/-- With no separator in the filename component, the filename starts
right after the appended separator. -/
theorem filenamePos_append (d r : Path) (hslash : '/' ∉ r) :
    filenamePos (d ++ '/' :: r) = d.length + 1 := by
  have hrev : (d ++ '/' :: r).reverse = r.reverse ++ '/' :: d.reverse := by
    simp
  have htw : ((d ++ '/' :: r).reverse.takeWhile
      (fun ch => ch ≠ '/')) = r.reverse := by
    rw [hrev]
    apply takeWhile_append_stop
    · intro x hx
      rw [List.mem_reverse] at hx
      have hxn : x ≠ '/' := fun hxe => hslash (hxe ▸ hx)
      simp [hxn]
    · simp
  simp only [filenamePos, htw, List.length_append, List.length_cons,
    List.length_reverse]
  omega

theorem firstMatch_none_prepend (p : Char → Bool) (l1 l2 : List Char)
    (h : ∀ x ∈ l1, p x = false) :
    firstMatch (l1 ++ l2) p = (firstMatch l2 p).map (· + l1.length) := by
  induction l1 with
  | nil =>
    cases hfi : firstMatch l2 p
    · simp [firstMatch, hfi]
    · simp [firstMatch, hfi]
  | cons x xs ih =>
    have hx := h x (List.mem_cons_self x xs)
    rw [List.cons_append]
    simp only [firstMatch, hx, Bool.false_eq_true, if_false,
      ih (fun y hy => h y (List.mem_cons_of_mem x hy))]
    cases hfi : firstMatch l2 p
    · simp [hfi]
    · simp [hfi]
      omega

/-- With no dot in the filename component, any dot found by the
last-dot search lies inside the directory part, strictly before the
filename position. -/
theorem lastIndexOf_dot_lt (d r : Path) (hdot : '.' ∉ r) (pos : Nat)
    (h : lastIndexOf (d ++ '/' :: r) '.' = some pos) :
    pos < d.length + 1 := by
  unfold lastIndexOf at h
  have hrev : (d ++ '/' :: r).reverse = r.reverse ++ '/' :: d.reverse := by
    simp
  rw [hrev] at h
  have hnone : ∀ x ∈ r.reverse, (fun x => decide (x = '.')) x = false := by
    intro x hx
    rw [List.mem_reverse] at hx
    have hxn : x ≠ '.' := fun hxe => hdot (hxe ▸ hx)
    simp [hxn]
  rw [firstMatch_none_prepend _ _ _ hnone] at h
  simp only [firstMatch] at h
  rw [if_neg (by decide)] at h
  cases hj : firstMatch d.reverse (fun x => decide (x = '.')) with
  | none => rw [hj] at h; simp at h
  | some j =>
    rw [hj] at h
    simp at h
    omega

/-- Appending R (dot-free, slash-free) to D and replacing the
extension with ".o" yields exactly D/R.o. -/
theorem replaceExtension_o (d r : Path) (hslash : '/' ∉ r)
    (hdot : '.' ∉ r) :
    replaceExtension (d ++ '/' :: r) ".o".data =
      (d ++ '/' :: r) ++ ".o".data := by
  have hfp := filenamePos_append d r hslash
  have hoe : (".o".data : Path) = '.' :: 'o' :: [] := rfl
  rw [hoe]
  unfold replaceExtension
  cases hli : lastIndexOf (d ++ '/' :: r) '.' with
  | none => simp
  | some pos =>
    have hlt := lastIndexOf_dot_lt d r hdot pos hli
    rw [hfp]
    simp [Nat.not_le.mpr hlt]

/-- C9 (counterexample): building resource name "foo.bc" in cache
directory "cache" succeeds and writes the object at "cache/foo.o" —
the resource name's extension is replaced — not at "cache/foo.bc.o" as
the claim's D/R.o formula requires; no operation of the run ever
touches "cache/foo.bc.o". -/
theorem C9_object_not_at_D_R_o :
    (build false none envAllOk (some "cache".data)
        (some "foo.bc".data) (some [1]) 1 [] none false).1 = true ∧
    Event.openWrite "cache/foo.o".data ∈
      (build false none envAllOk (some "cache".data)
        (some "foo.bc".data) (some [1]) 1 [] none false).2.2 ∧
    Event.compile "cache/foo.o".data ∈
      (build false none envAllOk (some "cache".data)
        (some "foo.bc".data) (some [1]) 1 [] none false).2.2 ∧
    ∀ e ∈ (build false none envAllOk (some "cache".data)
        (some "foo.bc".data) (some [1]) 1 [] none false).2.2,
      e.touches "cache/foo.bc.o".data = false := by
  refine ⟨rfl, by decide, by decide, by decide⟩

/-- C9 (amended): every successful build writes the object at the path
obtained by appending the resource name R to the cache directory D and
replacing R's extension with ".o" — which equals D/R.o exactly when R
contains no dot — and writes the sidecar at the path derived from the
object path by the fixed ".info" suffix rule, a pure function of the
object path requiring no file reads. -/
theorem C9_output_and_sidecar_paths (arm : Bool)
    (cfg : Option CompilerConfig) (env : Env) (d r : Path)
    (bc : List Nat) (n : Nat) (cmdLine : Path) (chk : Option Path)
    (dumpIR : Bool)
    (h : (build arm cfg env (some d) (some r) (some bc) n cmdLine chk
           dumpIR).1 = true) :
    Event.openWrite (replaceExtension (pathAppend d r) ".o".data) ∈
      (build arm cfg env (some d) (some r) (some bc) n cmdLine chk
        dumpIR).2.2 ∧
    Event.compile (replaceExtension (pathAppend d r) ".o".data) ∈
      (build arm cfg env (some d) (some r) (some bc) n cmdLine chk
        dumpIR).2.2 ∧
    Event.writeInfo (RSInfo.GetPath
        (replaceExtension (pathAppend d r) ".o".data)) ∈
      (build arm cfg env (some d) (some r) (some bc) n cmdLine chk
        dumpIR).2.2 ∧
    RSInfo.GetPath (replaceExtension (pathAppend d r) ".o".data) =
      replaceExtension (pathAppend d r) ".o".data ++ ".info".data ∧
    (d ≠ [] → d.getLast? ≠ some '/' → r ≠ [] → '/' ∉ r → '.' ∉ r →
      replaceExtension (pathAppend d r) ".o".data =
        d ++ '/' :: (r ++ ".o".data)) := by
  obtain ⟨hn, hsrc, hcs, htr⟩ :=
    build_success arm cfg env d r bc n cmdLine chk dumpIR h
  obtain ⟨e1, e2, e3, e4, e5, e6, e7, e8⟩ :=
    compileScript_success_flags arm cfg env ⟨env.wrapperOptLevel, false⟩
      (replaceExtension (pathAppend d r) ".o".data) env.sha1Digest
      cmdLine chk true dumpIR hcs
  have heq := compileScript_ok arm cfg env ⟨env.wrapperOptLevel, false⟩
    (replaceExtension (pathAppend d r) ".o".data) env.sha1Digest
    cmdLine chk true dumpIR e1 e2 e3 e4 e5 e6 e7 (e8 rfl).1
    (e8 rfl).2.1 (e8 rfl).2.2
  rw [htr, heq]
  refine ⟨by simp [successTrace], by simp [successTrace],
    by simp [successTrace], rfl, ?_⟩
  intro hd hlast hr0 hslash hdot
  have hhead : r.head? ≠ some '/' := by
    rcases r with _ | ⟨x, xs⟩
    · exact absurd rfl hr0
    · intro hx
      simp only [List.head?_cons, Option.some_inj] at hx
      exact hslash (hx ▸ List.mem_cons_self x xs)
  rw [pathAppend_no_sep d r hd hlast hhead,
    replaceExtension_o d r hslash hdot]
  simp

/-- C9 witness for the amended theorem at a concrete input with a
dot-free resource name. -/
theorem C9_output_and_sidecar_paths_witness :
    Event.compile (replaceExtension (pathAppend "cache".data "foo".data)
        ".o".data) ∈
      (build false none envAllOk (some "cache".data) (some "foo".data)
        (some [1]) 1 [] none false).2.2 ∧
    replaceExtension (pathAppend "cache".data "foo".data) ".o".data =
      "cache".data ++ '/' :: ("foo".data ++ ".o".data) :=
  ⟨(C9_output_and_sidecar_paths false none envAllOk "cache".data
      "foo".data [1] 1 [] none false (by decide)).2.1,
    (C9_output_and_sidecar_paths false none envAllOk "cache".data
      "foo".data [1] 1 [] none false (by decide)).2.2.2.2 (by decide)
      (by decide) (by decide) (by decide) (by decide)⟩

end Bcc
